import Mathlib

/-!
Shallow embedding of the `nouveau` collaborative-poem engine
(`src/nouveau/poem.py` and `src/nouveau/generators.py`), together with
theorems checking the specification's claims about it.

Conventions of the embedding:
* Python strings are Lean `String`; word/character level operations work on
  `List Char` via `String.toList`.
* Python `float` costs are embedded as `ℚ` (every cost produced by the score
  factories in scope is a small dyadic value, represented exactly).
* A raised exception is an `Except.error` carrying the exception message.
* Stateful model backends are embedded by explicit state passing.
-/

namespace Nouveau

/-- Embeds the `Line` dataclass of `poem.py` (fields in source order). -/
structure Line where
  author : String
  text : String
deriving DecidableEq, Repr

/-- Embeds the `Poem` dataclass of `poem.py`.  `created_at` and
`schema_version` are carried for fidelity but play no role in the claims. -/
structure Poem where
  max_lines : Nat
  generator_name : String
  model_name : String
  lines : List Line
  created_at : String
  schema_version : Nat
deriving DecidableEq, Repr

/-- Helper mirroring the tests' `make_poem`: an otherwise-default poem. -/
def mkPoem (m : Nat) (ls : List Line) : Poem :=
  { max_lines := m, generator_name := "last", model_name := "fake",
    lines := ls, created_at := "", schema_version := 1 }

/-- Embeds `Poem.is_full`: `len(self.lines) >= self.max_lines`. -/
def Poem.is_full (p : Poem) : Bool :=
  decide (p.max_lines ≤ p.lines.length)

/-- Embeds `Poem.add_line`: raises `ValueError("poem is full")` when full
(the spec's `StateError`), otherwise appends `Line(author=author, text=text)`. -/
def Poem.add_line (p : Poem) (text author : String) : Except String Poem :=
  if p.is_full then .error "poem is full"
  else .ok { p with lines := p.lines ++ [{ author := author, text := text }] }

/-- State reached after a call of `add_line`: on the error path the exception
is raised before any mutation, so the poem is unchanged. -/
def Poem.add_line_state (p : Poem) (text author : String) : Poem :=
  match p.add_line text author with
  | .ok q => q
  | .error _ => p

/-- Runs a whole sequence of `add_line` calls (text, author pairs) from a
starting poem; a failed call leaves the poem unchanged. -/
def runAdds (p : Poem) (ops : List (String × String)) : Poem :=
  ops.foldl (fun q ta => q.add_line_state ta.1 ta.2) p

/- ------------------------------------------------------------------ -/
/- Python string semantics helpers                                     -/
/- ------------------------------------------------------------------ -/

/-- Whitespace characters recognised by Python's `str.split()` /
`str.strip()` with no arguments. -/
def pyIsSpace (c : Char) : Bool :=
  c = ' ' || c = '\t' || c = '\n' || c = '\x0d' || c = '\x0c' || c = '\x0b'

/-- Embeds Python `s.split()`: split on runs of whitespace, dropping empty
pieces. -/
def pySplit (s : List Char) : List (List Char) :=
  (s.splitOnP pyIsSpace).filter (fun w => !w.isEmpty)

/-- Embeds Python `s.strip()`: drop leading and trailing whitespace. -/
def pyStrip (s : List Char) : List Char :=
  ((s.dropWhile pyIsSpace).reverse.dropWhile pyIsSpace).reverse

/-- Embeds Python `l[s:]` for an arbitrary integer `s`: a negative start
counts from the end and is clamped at 0; a start past the end yields `[]`
(here via `List.drop`). -/
def pySliceFrom {α : Type} (l : List α) (s : Int) : List α :=
  if s < 0 then l.drop (max 0 ((l.length : Int) + s)).toNat
  else l.drop s.toNat

/-- Embeds Python `l[:s]` for an arbitrary integer `s`. -/
def pySliceTo {α : Type} (l : List α) (s : Int) : List α :=
  if s < 0 then l.take (max 0 ((l.length : Int) + s)).toNat
  else l.take s.toNat

/-- Embeds Python single-element indexing `l[i]` after the bound check
`-len(l) <= i < len(l)` has succeeded: a negative index counts from the end. -/
def pyResolveIdx (len : Nat) (i : Int) : Nat :=
  if i < 0 then ((len : Int) + i).toNat else i.toNat

/-- Embeds `"\n".join(...)`. -/
def joinNl (l : List String) : String :=
  String.intercalate "\n" l

/- ------------------------------------------------------------------ -/
/- Context selectors (generators.py)                                   -/
/- ------------------------------------------------------------------ -/

/-- Embeds `last_lines(n)`: `"\n".join(line.text for line in poem.lines[-n:])`.
`n` is an arbitrary integer, exactly as in Python. -/
def last_lines (n : Int) (p : Poem) : String :=
  joinNl ((pySliceFrom p.lines (-n)).map (fun l => l.text))

/-- Embeds `first_lines(n)`: `"\n".join(line.text for line in poem.lines[:n])`. -/
def first_lines (n : Int) (p : Poem) : String :=
  joinNl ((pySliceTo p.lines n).map (fun l => l.text))

/-- Embeds the list-of-indices branch of `_resolve_line_selector`:
`[poem.lines[i] for i in selector if -n <= i < n]`.  For an in-range index
`poem.lines[i]` always resolves, so filtering and indexing are merged into a
`filterMap` over `List.get?`. -/
def resolveLineSelectorList (lines : List Line) (sel : List Int) : List Line :=
  sel.filterMap (fun i =>
    if -(lines.length : Int) ≤ i ∧ i < (lines.length : Int) then
      lines.get? (pyResolveIdx lines.length i)
    else none)

/-- Embeds `line_window(selector)` applied to a list-of-indices selector. -/
def line_window_list (sel : List Int) (p : Poem) : String :=
  joinNl ((resolveLineSelectorList p.lines sel).map (fun l => l.text))

/- ------------------------------------------------------------------ -/
/- Generator combinators (generators.py)                               -/
/- ------------------------------------------------------------------ -/

/-- A plain generation backend for the unconstrained generators: prompt in,
line out (the `FakeModel` of the tests is one of these). -/
def SimpleModel : Type := String → String

/-- A generator in the sense of `GeneratorFn`, over a plain backend. -/
def Gen : Type := Poem → SimpleModel → String

/-- Embeds `make_generator(context_fn)`. -/
def make_generator (context_fn : Poem → String) : Gen :=
  fun p m => m (context_fn p)

/-- Embeds `make_conditional(condition, if_true, if_false)`. -/
def make_conditional (condition : Poem → Bool) (if_true if_false : Gen) : Gen :=
  fun p m => if condition p then if_true p m else if_false p m

/-- Embeds the named generator `last = make_generator(last_lines(1))`. -/
def lastGen : Gen := make_generator (last_lines 1)

/-- Embeds the named generator `first = make_generator(first_lines(1))`. -/
def firstGen : Gen := make_generator (first_lines 1)

/-- Embeds the named generator `closure`: `make_conditional` on
`len(poem) == poem.max_lines - 1` (integer arithmetic, as in Python). -/
def closure : Gen :=
  make_conditional
    (fun p => decide ((p.lines.length : Int) = (p.max_lines : Int) - 1))
    firstGen lastGen

/- ------------------------------------------------------------------ -/
/- Constrained generation (generators.py)                              -/
/- ------------------------------------------------------------------ -/

/-- A stateful generation backend: from a state, a prompt and a
`max_new_tokens` budget produce an output line and a successor state. -/
def ModelFn (σ : Type) : Type := σ → String → Nat → String × σ

/-- Embeds the list comprehension
`[model.generate(context, max_new_tokens=max_new_tokens) for _ in range(n_candidates)]`:
`n` sequential backend calls, all with the same prompt, outputs in call order. -/
def genCandidates {σ : Type} (gen : ModelFn σ) (prompt : String) (maxTok : Nat) :
    Nat → σ → List String × σ
  | 0, s => ([], s)
  | Nat.succ k, s =>
    let r := gen s prompt maxTok
    let rest := genCandidates gen prompt maxTok k r.2
    (r.1 :: rest.1, rest.2)

/-- Embeds Python `min(candidates, key=score)`: fold keeping the current
best, replacing it only on a strictly smaller key, so the first of several
minimal elements wins.  `none` embeds the `ValueError` Python's `min` raises
on an empty sequence. -/
def pymin (key : String → ℚ) : List String → Option String
  | [] => none
  | x :: xs => some (xs.foldl (fun best c => if key c < key best then c else best) x)

/-- A score factory: given a poem, a cost function over candidate strings. -/
def ScoreFactory : Type := Poem → String → ℚ

/-- Embeds `make_constrained_generator(context_fn, make_score, n_candidates,
max_new_tokens)` applied to a poem and a stateful backend: compute the
context once, build the per-turn score, sample `n_candidates` candidates
sequentially, return the `min` by score together with the final backend
state. -/
def make_constrained_generator {σ : Type} (context_fn : Poem → String)
    (make_score : ScoreFactory) (n_candidates maxTok : Nat)
    (p : Poem) (gen : ModelFn σ) (s : σ) : Option String × σ :=
  let context := context_fn p
  let score := make_score p
  let cs := genCandidates gen context maxTok n_candidates s
  (pymin score cs.1, cs.2)

/-- An instrumented backend used to observe the constrained generator's
calls: the state records the prompts received (in order) and a call counter;
the output of the `k`-th call is `f k`. -/
def recordingModel (f : Nat → String) : ModelFn (List String × Nat) :=
  fun s prompt _ => (f s.2, (s.1 ++ [prompt], s.2 + 1))

/-- Spec-side stable argmin, following the spec's words: the candidate at the
earliest position whose cost is less than or equal to every candidate's cost. -/
def firstMin (key : String → ℚ) (l : List String) : Option String :=
  l.find? (fun c => l.all (fun d => decide (key c ≤ key d)))

/- ------------------------------------------------------------------ -/
/- Scoring utilities (generators.py)                                   -/
/- ------------------------------------------------------------------ -/

/-- The punctuation characters stripped by `_end_sound`:
`word.rstrip(".,!?;:'\"")`. -/
def endPunct (c : Char) : Bool :=
  c = '.' || c = ',' || c = '!' || c = '?' || c = ';' || c = ':' || c = '\'' || c = '"'

/-- Embeds `word.lower().rstrip(".,!?;:'\"")`. -/
def stripLower (w : List Char) : List Char :=
  ((w.map Char.toLower).reverse.dropWhile endPunct).reverse

/-- Embeds `_end_sound(word, n)`: after lower-casing and stripping trailing
punctuation, `word[-n:] if len(word) >= n else word`.  Python's `word[-0:]`
is the whole word, hence the inner `n = 0` case. -/
def end_sound (word : List Char) (n : Nat) : List Char :=
  let w := stripLower word
  if n ≤ w.length then (if n = 0 then w else w.drop (w.length - n)) else w

/-- The last `n` characters of a list (all of it when it is shorter), used to
state the spec's "last `n_chars` characters" key. -/
def takeRightL {α : Type} (l : List α) (n : Nat) : List α :=
  l.drop (l.length - n)

/-- Spec-side rhyme key: last `n` characters of the lower-cased,
punctuation-stripped word. -/
def specKey (n : Nat) (w : List Char) : List Char :=
  takeRightL (stripLower w) n

/-- True exactly on the vowel characters `a e i o u y` (already lower-cased). -/
def isVowelChar (c : Char) : Bool :=
  c = 'a' || c = 'e' || c = 'i' || c = 'o' || c = 'u' || c = 'y'

/-- Counts the matches of `re.findall(r"[aeiouy]+", text.lower())`: one per
maximal vowel run, realised as a left-to-right scan whose `inRun` flag
remembers whether the previous character was a vowel. -/
def vowelRuns : List Char → Bool → Nat
  | [], _ => 0
  | c :: cs, inRun =>
    let v := isVowelChar c.toLower
    (if v && !inRun then 1 else 0) + vowelRuns cs v

/-- Embeds `count_syllables(text)`: `max(1, len(re.findall(r"[aeiouy]+", text.lower())))`. -/
def count_syllables (text : String) : Nat :=
  max 1 (vowelRuns text.toList false)

/-- Spec-side count of maximal vowel runs: the number of run-starts, i.e.
positions holding a vowel whose predecessor (or start of string) is not one. -/
def specVowelClusters (l : List Char) : Nat :=
  (((false :: l.map (fun c => isVowelChar c.toLower)).zip
      (l.map (fun c => isVowelChar c.toLower))).filter
    (fun pr => !pr.1 && pr.2)).length

/-- Embeds `syllable_scorer(target)`:
`lambda poem: lambda text: abs(count_syllables(text) - target)`. -/
def syllable_scorer (target : Int) : ScoreFactory :=
  fun _ text => (((count_syllables text : Int) - target).natAbs : ℚ)

/-- Embeds `rhyme_scorer(n_chars)`'s `make_score`: on an empty poem the
constant-0 cost; otherwise the reference key comes from
`poem[-1].split()[-1]`, which raises `IndexError` when the last line has no
words (`Except.error`); a candidate with no words costs 1.0, and otherwise
the cost is 0.0 exactly when its key matches the reference. -/
def rhyme_make_score (n_chars : Nat) (p : Poem) : Except String (String → ℚ) :=
  match p.lines.getLast? with
  | none => .ok (fun _ => 0)
  | some lastLine =>
    match (pySplit lastLine.text.toList).getLast? with
    | none => .error "IndexError: list index out of range"
    | some refWord =>
      let ref := end_sound refWord n_chars
      .ok (fun text =>
        match (pySplit (pyStrip text.toList)).getLast? with
        | none => 1
        | some w => if end_sound w n_chars = ref then 0 else 1)

/-- Modelled from the spec: `combine_scores(*factories, weights=None)` is
imported by the test suite from `nouveau.generators` but is absent from that
module's source; §4.4 of the spec defines it as the score factory whose cost
is the weighted sum of the component factories' costs, each weight
defaulting to 1.0, with `weights` required to match `factories` in length. -/
def combine_scores (factories : List ScoreFactory) (weights : Option (List ℚ)) :
    ScoreFactory :=
  fun p text =>
    let ws := weights.getD (List.replicate factories.length 1)
    ((factories.zip ws).map (fun fw => fw.2 * fw.1 p text)).sum

/- ------------------------------------------------------------------ -/
/- Concrete fixtures used in witnesses and counterexamples             -/
/- ------------------------------------------------------------------ -/

/-- A one-line poem (line text "a"), far from full. -/
def poemA : Poem := mkPoem 10 [{ author := "human", text := "a" }]

/-- A three-line poem with lines a, b, c. -/
def poemAbc : Poem :=
  mkPoem 10 [{ author := "human", text := "a" }, { author := "ai", text := "b" },
             { author := "human", text := "c" }]

/-- A poem created empty, used for general fixtures. -/
def emptyPoem (m : Nat) (g mo : String) : Poem :=
  { max_lines := m, generator_name := g, model_name := mo,
    lines := [], created_at := "", schema_version := 1 }

/- ------------------------------------------------------------------ -/
/- Helper lemmas                                                       -/
/- ------------------------------------------------------------------ -/

lemma add_line_state_invariant (q : Poem) (t a : String)
    (h : q.lines.length ≤ q.max_lines) :
    (q.add_line_state t a).max_lines = q.max_lines ∧
    (q.add_line_state t a).lines.length ≤ q.max_lines := by
  unfold Poem.add_line_state Poem.add_line Poem.is_full
  by_cases hf : q.max_lines ≤ q.lines.length
  · simp [hf]
    omega
  · simp [hf, List.length_append]
    omega

lemma runAdds_invariant (ops : List (String × String)) :
    ∀ q : Poem, q.lines.length ≤ q.max_lines →
      (runAdds q ops).max_lines = q.max_lines ∧
      (runAdds q ops).lines.length ≤ q.max_lines := by
  induction ops with
  | nil => intro q h; exact ⟨rfl, h⟩
  | cons op ops ih =>
    intro q h
    have hstep : runAdds q (op :: ops) = runAdds (q.add_line_state op.1 op.2) ops := rfl
    obtain ⟨hm, hl⟩ := add_line_state_invariant q op.1 op.2 h
    obtain ⟨ihm, ihl⟩ := ih (q.add_line_state op.1 op.2) (by rw [hm]; exact hl)
    rw [hstep]
    exact ⟨ihm.trans hm, by rw [hm] at ihl; exact ihl⟩

lemma vowelRuns_spec (l : List Char) :
    ∀ b : Bool, vowelRuns l b =
      (((b :: l.map fun c => isVowelChar c.toLower).zip
          (l.map fun c => isVowelChar c.toLower)).filter
        (fun pr => !pr.1 && pr.2)).length := by
  induction l with
  | nil => intro b; rfl
  | cons c cs ih =>
    intro b
    simp only [vowelRuns, List.map_cons, List.zip_cons_cons, List.filter_cons]
    rw [ih (isVowelChar c.toLower)]
    cases hb : b <;> cases hv : isVowelChar c.toLower <;> simp [hv] <;> omega

/- ------------------------------------------------------------------ -/
/- Claim theorems                                                      -/
/- ------------------------------------------------------------------ -/

/-- C3: on a poem whose length equals `max_lines`, `add_line` fails with the
error "poem is full" and leaves the line sequence unchanged; on a poem whose
length is strictly below `max_lines`, it succeeds and appends exactly the one
new line. -/
theorem add_line_full_or_appends (p : Poem) (t a : String) :
    (p.lines.length = p.max_lines →
      p.add_line t a = .error "poem is full" ∧ p.add_line_state t a = p)
    ∧ (p.lines.length < p.max_lines →
      p.add_line t a = .ok { p with lines := p.lines ++ [{ author := a, text := t }] }) := by
  constructor
  · intro h
    have hf : p.max_lines ≤ p.lines.length := le_of_eq h.symm
    constructor
    · simp [Poem.add_line, Poem.is_full, hf]
    · simp [Poem.add_line_state, Poem.add_line, Poem.is_full, hf]
  · intro h
    have hf : ¬ p.max_lines ≤ p.lines.length := by omega
    simp [Poem.add_line, Poem.is_full, hf]

/-- Witness for C3: a full one-line poem rejects a second line unchanged, and
an empty poem accepts its first line. -/
theorem add_line_full_or_appends_witness :
    (Poem.add_line (mkPoem 1 [{ author := "human", text := "a" }]) "b" "human"
        = .error "poem is full"
      ∧ Poem.add_line_state (mkPoem 1 [{ author := "human", text := "a" }]) "b" "human"
        = mkPoem 1 [{ author := "human", text := "a" }])
    ∧ Poem.add_line (mkPoem 1 []) "a" "human"
        = .ok { mkPoem 1 [] with lines := [{ author := "human", text := "a" }] } :=
  ⟨(add_line_full_or_appends (mkPoem 1 [{ author := "human", text := "a" }]) "b" "human").1
      (by decide),
   (add_line_full_or_appends (mkPoem 1 []) "a" "human").2 (by decide)⟩

/-- C9: starting from a poem created empty with positive `max_lines` and
mutated only through `add_line`, every reachable state has at most
`max_lines` lines, and `is_full` holds exactly when the line count equals
`max_lines`. -/
theorem poem_capacity_invariant (m : Nat) (g mo : String)
    (ops : List (String × String)) (hm : 0 < m) :
    (runAdds (emptyPoem m g mo) ops).lines.length ≤ m
    ∧ ((runAdds (emptyPoem m g mo) ops).is_full = true ↔
        (runAdds (emptyPoem m g mo) ops).lines.length = m) := by
  obtain ⟨hmax, hlen⟩ :=
    runAdds_invariant ops (emptyPoem m g mo) (by simp [emptyPoem])
  have hmax' : (runAdds (emptyPoem m g mo) ops).max_lines = m := by
    simpa [emptyPoem] using hmax
  have hlen' : (runAdds (emptyPoem m g mo) ops).lines.length ≤ m := by
    simpa [emptyPoem] using hlen
  refine ⟨hlen', ?_⟩
  simp only [Poem.is_full, hmax', decide_eq_true_eq]
  omega

/-- Witness for C9: a single append into a capacity-1 poem. -/
theorem poem_capacity_invariant_witness :
    (runAdds (emptyPoem 1 "last" "fake") [("a", "human")]).lines.length ≤ 1
    ∧ ((runAdds (emptyPoem 1 "last" "fake") [("a", "human")]).is_full = true ↔
        (runAdds (emptyPoem 1 "last" "fake") [("a", "human")]).lines.length = 1) :=
  poem_capacity_invariant 1 "last" "fake" [("a", "human")] (by decide)

/-- C4 counterexample: on the one-line poem `a`, `last_lines(0)` returns all
lines ("a"), not the empty string the claim asserts for `n = 0`
(Python's `lines[-0:]` is `lines[0:]`). -/
theorem last_lines_zero_counterexample :
    last_lines 0 poemA = "a" ∧ last_lines 0 poemA ≠ "" := by
  constructor <;> decide

/-- C4 amended: for `1 ≤ n ≤ size`, `last_lines(n)` is exactly the last `n`
lines' text joined by newline in original order; for `n > size` it is all
lines; and for `n ≤ 0` it is all but the first `-n` lines (in particular all
lines at `n = 0`, not the empty string). -/
theorem last_lines_spec (n : Int) (p : Poem) :
    (1 ≤ n → n ≤ (p.lines.length : Int) →
      last_lines n p =
        joinNl ((p.lines.map (fun l => l.text)).drop (p.lines.length - n.toNat)))
    ∧ ((p.lines.length : Int) < n →
      last_lines n p = joinNl (p.lines.map (fun l => l.text)))
    ∧ (n ≤ 0 →
      last_lines n p = joinNl ((p.lines.map (fun l => l.text)).drop (-n).toNat)) := by
  refine ⟨?_, ?_, ?_⟩
  · intro h1 h2
    have hneg : (-n : Int) < 0 := by omega
    have harith : (max 0 ((p.lines.length : Int) + -n)).toNat
        = p.lines.length - n.toNat := by omega
    simp [last_lines, pySliceFrom, hneg, harith, List.map_drop]
  · intro h
    have hneg : (-n : Int) < 0 := by omega
    have harith : (max 0 ((p.lines.length : Int) + -n)).toNat = 0 := by omega
    simp [last_lines, pySliceFrom, hneg, harith]
  · intro h
    have hpos : ¬ (-n : Int) < 0 := by omega
    simp [last_lines, pySliceFrom, hpos, List.map_drop]

/-- Witness for C4 (amended): last two of three lines, `n` past the size, and
`n = 0`. -/
theorem last_lines_spec_witness :
    (last_lines 2 poemAbc = joinNl ((poemAbc.lines.map (fun l => l.text)).drop 1))
    ∧ (last_lines 5 poemAbc = joinNl (poemAbc.lines.map (fun l => l.text)))
    ∧ (last_lines 0 poemAbc = joinNl ((poemAbc.lines.map (fun l => l.text)).drop 0)) :=
  ⟨(last_lines_spec 2 poemAbc).1 (by decide) (by decide),
   (last_lines_spec 5 poemAbc).2.1 (by decide),
   (last_lines_spec 0 poemAbc).2.2 (by decide)⟩

/-- C6: `make_conditional` delegates entirely to `if_true` when the condition
holds and to `if_false` otherwise; the `closure` generator dispatches to the
first-line generator exactly when `len(poem) == max_lines - 1`, and to the
last-line generator on every smaller poem. -/
theorem closure_dispatch (cond : Poem → Bool) (tg fg : Gen) (p : Poem)
    (m : SimpleModel) :
    make_conditional cond tg fg p m = (if cond p then tg p m else fg p m)
    ∧ closure p m =
        (if (p.lines.length : Int) = (p.max_lines : Int) - 1
         then firstGen p m else lastGen p m)
    ∧ ((p.lines.length : Int) < (p.max_lines : Int) - 1 →
        closure p m = lastGen p m) := by
  refine ⟨rfl, ?_, ?_⟩
  · simp [closure, make_conditional]
  · intro h
    have hne : ¬ (p.lines.length : Int) = (p.max_lines : Int) - 1 := by omega
    simp [closure, make_conditional, hne]

/-- Witness for C6: a four-line poem with `max_lines = 6` takes the
last-line branch. -/
theorem closure_dispatch_witness :
    closure (mkPoem 6 [{ author := "h", text := "a" }, { author := "a", text := "b" },
                       { author := "h", text := "c" }, { author := "a", text := "d" }])
        (fun s => s)
      = lastGen (mkPoem 6 [{ author := "h", text := "a" }, { author := "a", text := "b" },
                           { author := "h", text := "c" }, { author := "a", text := "d" }])
          (fun s => s) :=
  (closure_dispatch (fun _ => true) firstGen lastGen
      (mkPoem 6 [{ author := "h", text := "a" }, { author := "a", text := "b" },
                 { author := "h", text := "c" }, { author := "a", text := "d" }])
      (fun s => s)).2.2 (by decide)

/-- C8: `syllable_scorer(target)` costs the absolute difference between the
candidate's maximal-vowel-run count (floored at 1) and the target, for every
integer target, poem and candidate; "rain" counts 1 and "water" counts 2. -/
theorem syllable_scorer_spec (target : Int) (p : Poem) (t : String) :
    syllable_scorer target p t
      = (((max 1 (specVowelClusters t.toList) : Int) - target).natAbs : ℚ)
    ∧ count_syllables "rain" = 1 ∧ count_syllables "water" = 2 := by
  refine ⟨?_, by decide, by decide⟩
  have h : count_syllables t = max 1 (specVowelClusters t.toList) := by
    simp [count_syllables, specVowelClusters, vowelRuns_spec]
  simp [syllable_scorer, h]

lemma get?_eq_some_getD {α : Type} (l : List α) (n : Nat) (d : α)
    (h : n < l.length) : l.get? n = some (l.getD n d) := by
  rw [List.getD_eq_get?, List.get?_eq_get h]
  rfl

lemma resolve_list_eq (lines : List Line) :
    ∀ sel : List Int,
      resolveLineSelectorList lines sel =
        (sel.filter (fun i =>
            decide (-(lines.length : Int) ≤ i ∧ i < (lines.length : Int)))).map
          (fun i => lines.getD (pyResolveIdx lines.length i)
            { author := "", text := "" }) := by
  intro sel
  induction sel with
  | nil => rfl
  | cons i rest ih =>
    simp only [resolveLineSelectorList] at ih ⊢
    by_cases h : -(lines.length : Int) ≤ i ∧ i < (lines.length : Int)
    · have hidx : pyResolveIdx lines.length i < lines.length := by
        obtain ⟨h1, h2⟩ := h
        unfold pyResolveIdx
        by_cases hneg : i < 0
        · simp only [hneg, if_true]
          omega
        · simp only [hneg, if_false]
          omega
      have hf : (if -(lines.length : Int) ≤ i ∧ i < (lines.length : Int)
            then lines.get? (pyResolveIdx lines.length i) else none)
          = some (lines.getD (pyResolveIdx lines.length i) { author := "", text := "" }) := by
        rw [if_pos h]
        exact get?_eq_some_getD lines _ _ hidx
      have hd : decide (-(lines.length : Int) ≤ i ∧ i < (lines.length : Int)) = true :=
        decide_eq_true h
      simp only [List.filterMap_cons, List.filter_cons, hf, hd, if_true, List.map_cons, ih]
    · have hf : (if -(lines.length : Int) ≤ i ∧ i < (lines.length : Int)
            then lines.get? (pyResolveIdx lines.length i) else none) = none := by
        rw [if_neg h]
      have hd : decide (-(lines.length : Int) ≤ i ∧ i < (lines.length : Int)) = false :=
        decide_eq_false h
      simp only [List.filterMap_cons, List.filter_cons, hf, hd, Bool.false_eq_true,
        if_false, ih]

/-- C5: `line_window` on a list of indices keeps exactly the in-range indices
(`-size ≤ i < size`), in the order given without sorting or deduplication,
resolves negative indices from the end, and joins the texts with newline; on
lines a, b, c the selector `[0, 5]` yields "a". -/
theorem line_window_list_spec (sel : List Int) (p : Poem) :
    line_window_list sel p =
      joinNl ((sel.filter (fun i =>
          decide (-(p.lines.length : Int) ≤ i ∧ i < (p.lines.length : Int)))).map
        (fun i => (p.lines.getD (pyResolveIdx p.lines.length i)
          { author := "", text := "" }).text))
    ∧ line_window_list [0, 5] poemAbc = "a" := by
  constructor
  · show joinNl ((resolveLineSelectorList p.lines sel).map (fun l => l.text)) = _
    rw [resolve_list_eq, List.map_map]
    rfl
  · decide

/-- C10: on a non-empty poem whose most recent line has no
whitespace-separated words, `rhyme_scorer`'s score factory fails with an
IndexError before any candidate is scored, instead of returning a cost
function. -/
theorem rhyme_scorer_empty_last_line (n : Nat) (p : Poem) (l : Line)
    (h1 : p.lines.getLast? = some l) (h2 : pySplit l.text.toList = []) :
    rhyme_make_score n p = .error "IndexError: list index out of range" := by
  have h2' : pySplit l.text.data = [] := h2
  simp [rhyme_make_score, h1, h2']

/-- Witness for C10: a poem whose only line is whitespace. -/
theorem rhyme_scorer_empty_last_line_witness :
    rhyme_make_score 3 (mkPoem 10 [{ author := "human", text := "   " }])
      = .error "IndexError: list index out of range" :=
  rhyme_scorer_empty_last_line 3 (mkPoem 10 [{ author := "human", text := "   " }])
    { author := "human", text := "   " } (by decide) (by decide)

lemma end_sound_eq_specKey (n : Nat) (hn : 1 ≤ n) (w : List Char) :
    end_sound w n = specKey n w := by
  unfold end_sound specKey takeRightL
  by_cases h : n ≤ (stripLower w).length
  · have h0 : ¬ n = 0 := by omega
    simp [h, h0]
  · have h0 : (stripLower w).length - n = 0 := by omega
    simp [h, h0]

/-- C7: the cost function of `rhyme_scorer(n_chars)` (for a fixed key width
`n_chars ≥ 1`) is constantly 0 on an empty poem; otherwise, whenever the
poem's most recent line has a last word, the factory yields a cost function
that charges 1 to a candidate with no words and otherwise 0 exactly when the
candidate's last word's key — the last `n_chars` characters after
lower-casing and stripping trailing punctuation — equals the reference key
of that most recent line's last word. -/
theorem rhyme_scorer_cost_spec (n : Nat) (hn : 1 ≤ n) (p : Poem) (cand : String) :
    (p.lines = [] → rhyme_make_score n p = .ok (fun _ => 0))
    ∧ (∀ lastLine refWord, p.lines.getLast? = some lastLine →
        (pySplit lastLine.text.toList).getLast? = some refWord →
        ∃ score, rhyme_make_score n p = .ok score ∧
          score cand =
            (match (pySplit (pyStrip cand.toList)).getLast? with
             | none => 1
             | some w => if specKey n w = specKey n refWord then 0 else 1)) := by
  constructor
  · intro h
    simp [rhyme_make_score, h]
  · intro lastLine refWord h1 h2
    refine ⟨(fun text =>
        match (pySplit (pyStrip text.toList)).getLast? with
        | none => 1
        | some w => if end_sound w n = end_sound refWord n then 0 else 1), ?_, ?_⟩
    · have h2' : (pySplit lastLine.text.data).getLast? = some refWord := h2
      simp [rhyme_make_score, h1, h2']
    · show (match (pySplit (pyStrip cand.toList)).getLast? with
             | none => (1 : ℚ)
             | some w => if end_sound w n = end_sound refWord n then 0 else 1)
          = (match (pySplit (pyStrip cand.toList)).getLast? with
             | none => (1 : ℚ)
             | some w => if specKey n w = specKey n refWord then 0 else 1)
      cases hc : (pySplit (pyStrip cand.toList)).getLast? with
      | none => rfl
      | some w => simp only [end_sound_eq_specKey n hn]

/-- Witness for C7: poem ending "falling rain", candidate "the night train",
key width 3. -/
theorem rhyme_scorer_cost_spec_witness :
    ∃ score,
      rhyme_make_score 3 (mkPoem 10 [{ author := "human", text := "falling rain" }])
          = .ok score ∧
      score "the night train" =
        (match (pySplit (pyStrip "the night train".toList)).getLast? with
         | none => 1
         | some w => if specKey 3 w = specKey 3 "rain".toList then 0 else 1) :=
  (rhyme_scorer_cost_spec 3 (by decide)
      (mkPoem 10 [{ author := "human", text := "falling rain" }]) "the night train").2
    { author := "human", text := "falling rain" } "rain".toList (by decide) (by decide)

lemma zip_replicate_one_sum (fs : List ScoreFactory) (p : Poem) (t : String) :
    ((fs.zip (List.replicate fs.length (1 : ℚ))).map
      (fun fw => fw.2 * fw.1 p t)).sum = (fs.map (fun fc => fc p t)).sum := by
  induction fs with
  | nil => rfl
  | cons f fs ih =>
    simp only [List.length_cons, List.replicate_succ, List.zip_cons_cons,
      List.map_cons, List.sum_cons, ih, one_mul]

/-- C2: `combine_scores` builds a factory whose cost is the weighted sum of
the component costs (weights defaulting to 1.0 each); two factories with
default weights sum their costs, and with weights `[2, 1]` the cost is
twice the first plus the second. -/
theorem combine_scores_spec (f g : ScoreFactory) (p : Poem) (t : String)
    (factories : List ScoreFactory) (ws : List ℚ) :
    (ws.length = factories.length →
      combine_scores factories (some ws) p t
        = ((factories.zip ws).map (fun fw => fw.2 * fw.1 p t)).sum)
    ∧ combine_scores factories none p t = (factories.map (fun fc => fc p t)).sum
    ∧ combine_scores [f, g] none p t = f p t + g p t
    ∧ combine_scores [f, g] (some [2, 1]) p t = 2 * f p t + g p t := by
  refine ⟨fun _ => rfl, ?_, ?_, ?_⟩
  · simp only [combine_scores, Option.getD_none]
    exact zip_replicate_one_sum factories p t
  · simp [combine_scores]
  · simp [combine_scores]

/-- Witness for C2: explicit weights `[1, 1]` on two syllable scorers. -/
theorem combine_scores_spec_witness :
    combine_scores [syllable_scorer 3, syllable_scorer 1] (some [1, 1])
        (mkPoem 10 []) "rain"
      = (([syllable_scorer 3, syllable_scorer 1].zip [(1 : ℚ), 1]).map
          (fun fw => fw.2 * fw.1 (mkPoem 10 []) "rain")).sum :=
  (combine_scores_spec (syllable_scorer 3) (syllable_scorer 1) (mkPoem 10 []) "rain"
    [syllable_scorer 3, syllable_scorer 1] [1, 1]).1 rfl

lemma find_congr {α : Type} (p q : α → Bool) :
    ∀ l : List α, (∀ a ∈ l, p a = q a) → l.find? p = l.find? q := by
  intro l
  induction l with
  | nil => intro _; rfl
  | cons x xs ih =>
    intro h
    have hx := h x (List.mem_cons_self x xs)
    by_cases hp : p x = true
    · rw [List.find?_cons_of_pos xs hp, List.find?_cons_of_pos xs (hx ▸ hp)]
    · have hq : ¬ q x = true := by rw [← hx]; exact hp
      rw [List.find?_cons_of_neg xs hp, List.find?_cons_of_neg xs hq]
      exact ih (fun a ha => h a (List.mem_cons_of_mem x ha))

lemma firstMin_cons_lt (key : String → ℚ) (x y : String) (ys : List String)
    (h : key y < key x) : firstMin key (x :: y :: ys) = firstMin key (y :: ys) := by
  unfold firstMin
  have hx : ¬ ((x :: y :: ys).all fun d => decide (key x ≤ key d)) = true := by
    intro hall
    have := (List.all_eq_true.mp hall) y (by simp)
    exact absurd (of_decide_eq_true this) (not_le.mpr h)
  rw [@List.find?_cons_of_neg String
    (fun c => (x :: y :: ys).all fun d => decide (key c ≤ key d)) x (y :: ys) hx]
  apply find_congr
  intro c _
  show ((x :: y :: ys).all fun d => decide (key c ≤ key d))
      = ((y :: ys).all fun d => decide (key c ≤ key d))
  rw [List.all_cons]
  cases hR : ((y :: ys).all fun d => decide (key c ≤ key d)) with
  | false => simp
  | true =>
    have hcy : key c ≤ key y :=
      of_decide_eq_true ((List.all_eq_true.mp hR) y (List.mem_cons_self y ys))
    have hcx : key c ≤ key x := le_of_lt (lt_of_le_of_lt hcy h)
    simp [hcx]

lemma firstMin_cons_ge (key : String → ℚ) (x y : String) (ys : List String)
    (h : key x ≤ key y) : firstMin key (x :: y :: ys) = firstMin key (x :: ys) := by
  unfold firstMin
  by_cases hx : ((x :: ys).all fun d => decide (key x ≤ key d)) = true
  · have hx' : ((x :: y :: ys).all fun d => decide (key x ≤ key d)) = true := by
      rw [List.all_cons, Bool.and_eq_true] at hx
      rw [List.all_cons, List.all_cons]
      simp only [Bool.and_eq_true]
      exact ⟨hx.1, decide_eq_true h, hx.2⟩
    rw [@List.find?_cons_of_pos String
        (fun c => (x :: y :: ys).all fun d => decide (key c ≤ key d)) x (y :: ys) hx',
      @List.find?_cons_of_pos String
        (fun c => (x :: ys).all fun d => decide (key c ≤ key d)) x ys hx]
  · have hxB : ((x :: ys).all fun d => decide (key x ≤ key d)) = false := by
      revert hx
      cases (x :: ys).all fun d => decide (key x ≤ key d) <;> simp
    obtain ⟨d, hd, hdk⟩ := List.all_eq_false.mp hxB
    have hdlt : key d < key x := not_le.mp (fun hc => hdk (decide_eq_true hc))
    have hdys : d ∈ ys := by
      rcases List.mem_cons.mp hd with rfl | hmem
      · exact absurd hdlt (lt_irrefl _)
      · exact hmem
    have hLx : ¬ ((x :: y :: ys).all fun d' => decide (key x ≤ key d')) = true := by
      intro hall
      have := (List.all_eq_true.mp hall) d (by simp [hdys])
      exact absurd (of_decide_eq_true this) (not_le.mpr hdlt)
    have hLy : ¬ ((x :: y :: ys).all fun d' => decide (key y ≤ key d')) = true := by
      intro hall
      have := (List.all_eq_true.mp hall) d (by simp [hdys])
      exact absurd (of_decide_eq_true this) (not_le.mpr (lt_of_lt_of_le hdlt h))
    rw [@List.find?_cons_of_neg String
        (fun c => (x :: y :: ys).all fun d => decide (key c ≤ key d)) x (y :: ys) hLx,
      @List.find?_cons_of_neg String
        (fun c => (x :: y :: ys).all fun d => decide (key c ≤ key d)) y ys hLy,
      @List.find?_cons_of_neg String
        (fun c => (x :: ys).all fun d => decide (key c ≤ key d)) x ys
        (by simpa using hxB)]
    apply find_congr
    intro c hc
    show ((x :: y :: ys).all fun d' => decide (key c ≤ key d'))
        = ((x :: ys).all fun d' => decide (key c ≤ key d'))
    cases hA : decide (key c ≤ key x) with
    | false => simp [List.all_cons, hA]
    | true =>
      have hB : decide (key c ≤ key y) = true :=
        decide_eq_true (le_trans (of_decide_eq_true hA) h)
      simp [List.all_cons, hA, hB]

lemma pymin_eq_firstMin (key : String → ℚ) : ∀ l : List String,
    pymin key l = firstMin key l := by
  intro l
  cases l with
  | nil => rfl
  | cons x xs =>
    induction xs generalizing x with
    | nil =>
      unfold pymin firstMin
      rw [List.find?_cons_of_pos _ (by simp)]
      rfl
    | cons y ys ih =>
      have hfold : pymin key (x :: y :: ys)
          = pymin key ((if key y < key x then y else x) :: ys) := rfl
      rw [hfold]
      by_cases hk : key y < key x
      · rw [if_pos hk, ih y, firstMin_cons_lt key x y ys hk]
      · rw [if_neg hk, ih x, firstMin_cons_ge key x y ys (le_of_not_lt hk)]

lemma genCandidates_recording (f : Nat → String) (prompt : String) (tok : Nat) :
    ∀ (n : Nat) (log : List String) (k : Nat),
      genCandidates (recordingModel f) prompt tok n (log, k)
        = ((List.range' k n).map f, (log ++ List.replicate n prompt, k + n)) := by
  intro n
  induction n with
  | zero => intro log k; simp [genCandidates]
  | succ m ih =>
    intro log k
    rw [List.range'_succ, List.replicate_succ, List.append_cons]
    show ((f k) :: (genCandidates (recordingModel f) prompt tok m (log ++ [prompt], k + 1)).1,
        (genCandidates (recordingModel f) prompt tok m (log ++ [prompt], k + 1)).2)
      = _
    rw [ih (log ++ [prompt]) (k + 1)]
    simp only [List.map_cons]
    rw [show k + 1 + m = k + (m + 1) from by omega]

/-- Runs the constrained generator against the instrumented backend from a
fresh call log, exposing the selected candidate, the prompts issued and the
number of backend calls. -/
def constrainedRun (context_fn : Poem → String) (make_score : ScoreFactory)
    (n maxTok : Nat) (p : Poem) (f : Nat → String) :
    Option String × (List String × Nat) :=
  make_constrained_generator context_fn make_score n maxTok p (recordingModel f) ([], 0)

/-- C1 counterexample: with `n_candidates = 0` the generator produces no
candidate at all (`none` embeds the `ValueError` Python's `min` raises on an
empty sequence), so it does not return a minimum-cost candidate as the claim
asserts for every `n_candidates`. -/
theorem constrained_generator_zero_counterexample :
    (constrainedRun (last_lines 1) (syllable_scorer 1) 0 20 poemA (fun _ => "x")).1
      = none := rfl

/-- C1 amended: for every `n_candidates ≥ 1`, the generator built by
`make_constrained_generator` calls the backend exactly `n_candidates` times,
each call with the identical prompt `context_fn(poem)` in sequence, and
returns (some) candidate, namely the earliest minimum-cost one among the
backend's outputs in call order (stable argmin). -/
theorem constrained_generator_contract (context_fn : Poem → String)
    (make_score : ScoreFactory) (f : Nat → String) (n maxTok : Nat) (p : Poem)
    (hn : 1 ≤ n) :
    (constrainedRun context_fn make_score n maxTok p f).2.1
        = List.replicate n (context_fn p)
    ∧ (constrainedRun context_fn make_score n maxTok p f).2.2 = n
    ∧ (constrainedRun context_fn make_score n maxTok p f).1
        = firstMin (make_score p) ((List.range n).map f)
    ∧ ((constrainedRun context_fn make_score n maxTok p f).1).isSome = true := by
  have hrun : constrainedRun context_fn make_score n maxTok p f
      = (pymin (make_score p) ((List.range' 0 n).map f),
         ([] ++ List.replicate n (context_fn p), 0 + n)) := by
    show (pymin (make_score p)
            ((genCandidates (recordingModel f) (context_fn p) maxTok n ([], 0)).1),
          (genCandidates (recordingModel f) (context_fn p) maxTok n ([], 0)).2) = _
    rw [genCandidates_recording]
  rw [hrun]
  refine ⟨by simp, by simp, ?_, ?_⟩
  · show pymin (make_score p) ((List.range' 0 n).map f)
        = firstMin (make_score p) ((List.range n).map f)
    rw [List.range_eq_range', pymin_eq_firstMin]
  · show (pymin (make_score p) ((List.range' 0 n).map f)).isSome = true
    cases n with
    | zero => omega
    | succ m =>
      rw [List.range'_succ, List.map_cons]
      rfl

/-- Witness for C1 (amended): the test scenario — three candidates against
`syllable_scorer(1)` on a one-line poem; the backend sees "start" three
times and "hi" wins. -/
theorem constrained_generator_contract_witness :
    (constrainedRun (last_lines 1) (syllable_scorer 1) 3 20 (mkPoem 10 [{ author := "human", text := "start" }])
        (fun k => ["beautiful afternoon sky", "hi", "open door"].getD k "")).2.1
        = List.replicate 3 (last_lines 1 (mkPoem 10 [{ author := "human", text := "start" }]))
    ∧ (constrainedRun (last_lines 1) (syllable_scorer 1) 3 20 (mkPoem 10 [{ author := "human", text := "start" }])
        (fun k => ["beautiful afternoon sky", "hi", "open door"].getD k "")).2.2 = 3
    ∧ (constrainedRun (last_lines 1) (syllable_scorer 1) 3 20 (mkPoem 10 [{ author := "human", text := "start" }])
        (fun k => ["beautiful afternoon sky", "hi", "open door"].getD k "")).1
        = firstMin (syllable_scorer 1 (mkPoem 10 [{ author := "human", text := "start" }]))
            ((List.range 3).map (fun k => ["beautiful afternoon sky", "hi", "open door"].getD k ""))
    ∧ ((constrainedRun (last_lines 1) (syllable_scorer 1) 3 20 (mkPoem 10 [{ author := "human", text := "start" }])
        (fun k => ["beautiful afternoon sky", "hi", "open door"].getD k "")).1).isSome = true :=
  constrained_generator_contract (last_lines 1) (syllable_scorer 1)
    (fun k => ["beautiful afternoon sky", "hi", "open door"].getD k "") 3 20
    (mkPoem 10 [{ author := "human", text := "start" }]) (by decide)

end Nouveau
